import Mathlib

/-!
Verification of the eBAF (eBPF Based Ad Firewall) core against its
natural-language specification.

The development shallowly embeds the C sources:

* the kernel XDP classifier `xdp_blocker` (src/src/adblocker.bpf.c),
* the user-space domain store / resolver (src/unnamed/part_002,
  the richer `domain_store.c` with whitelist support),
* the statistics exporter (src/unnamed/part_006, `write_stats_to_file`
  and the 2-second main loop).

Machine integers are modelled as `Nat`; a BPF map is a function
`Nat → Option Nat` (key → stored value), packets are byte lists.
IPv4 addresses carried in `__u32` fields / map keys are the numeric
value of that 32-bit word on the little-endian (x86) host, i.e. the
little-endian reading of the big-endian wire bytes; `ntohl` / `htonl`
are the 32-bit byte swap.
-/

namespace EBAF

/-- A BPF hash map: partial mapping from 32-bit keys to 64-bit values. -/
abbrev BpfMap := Nat → Option Nat

/-- `bpf_map_update_elem(fd, &key, &value, BPF_ANY)`: create the entry or
overwrite the existing one. -/
def mapUpdateAny (m : BpfMap) (k v : Nat) : BpfMap :=
  fun q => if q = k then some v else m q

/-- The two slots of the `stats_map` array map (`BPF_MAP_TYPE_ARRAY`,
`max_entries = 2`); an array map always holds both slots. -/
structure Stats where
  total : Nat
  blocked : Nat
  deriving DecidableEq, Repr

def STAT_TOTAL : Nat := 0

def STAT_BLOCKED : Nat := 1

/-- `update_stats` from adblocker.bpf.c: atomically add 1 to the requested
slot.  The array-map lookup always succeeds for the two valid indices. -/
def update_stats (statType : Nat) (s : Stats) : Stats :=
  if statType = STAT_TOTAL then { s with total := s.total + 1 }
  else if statType = STAT_BLOCKED then { s with blocked := s.blocked + 1 }
  else s

/-- EtherType of IPv4; `eth->h_proto != bpf_htons(ETH_P_IP)` compares the two
wire bytes at offsets 12 and 13 against `08 00`. -/
def ETH_P_IP : Nat := 2048

/-- The 16-bit `h_proto` field read in network byte order from the frame. -/
def ethProtoOf (pkt : List Nat) : Nat :=
  pkt.getD 12 0 * 256 + pkt.getD 13 0

/-- `ip->daddr` (wire offsets 30..33) as the `__u32` value seen by the
little-endian host, which is also the numeric form of the map key. -/
def daddrOf (pkt : List Nat) : Nat :=
  pkt.getD 30 0 + pkt.getD 31 0 * 256 + pkt.getD 32 0 * 65536 +
    pkt.getD 33 0 * 16777216

/-- `ip->saddr` (wire offsets 26..29), same representation as `daddrOf`. -/
def saddrOf (pkt : List Nat) : Nat :=
  pkt.getD 26 0 + pkt.getD 27 0 * 256 + pkt.getD 28 0 * 65536 +
    pkt.getD 29 0 * 16777216

inductive XdpAction where
  | XDP_PASS
  | XDP_DROP
  deriving DecidableEq, Repr

/-- The XDP classifier `xdp_blocker` of src/src/adblocker.bpf.c: count the
packet, parse L2 (14 bytes) and L3 (20 bytes) with bounds checks, then try the
destination and source addresses against `blacklist_ip_map`; a hit bumps the
per-IP counter and `stats[STAT_BLOCKED]` and drops.  Returns the verdict, the
updated blacklist map and the updated stats. -/
def xdp_blocker (blacklist : BpfMap) (stats : Stats) (pkt : List Nat) :
    XdpAction × BpfMap × Stats :=
  let stats := update_stats STAT_TOTAL stats
  if pkt.length < 14 then (.XDP_PASS, blacklist, stats)
  else if ethProtoOf pkt ≠ ETH_P_IP then (.XDP_PASS, blacklist, stats)
  else if pkt.length < 34 then (.XDP_PASS, blacklist, stats)
  else
    match blacklist (daddrOf pkt) with
    | some c =>
      (.XDP_DROP, mapUpdateAny blacklist (daddrOf pkt) (c + 1),
        update_stats STAT_BLOCKED stats)
    | none =>
      match blacklist (saddrOf pkt) with
      | some c =>
        (.XDP_DROP, mapUpdateAny blacklist (saddrOf pkt) (c + 1),
          update_stats STAT_BLOCKED stats)
      | none => (.XDP_PASS, blacklist, stats)

/-- Modelled from the spec: the classifier variant that also consults the
allow set is not among the C sources of this snapshot — only the user-space
code that fills the whitelist map (`whitelist_resolver_update`, taking a
`whitelist_map_fd`) and its header declarations are present, while
src/src/adblocker.bpf.c predates the whitelist map.  Per spec §4.2 steps 1–8,
that classifier performs the two `allow_set` lookups (destination, then
source; each hit passes) after parsing and before the two `block_set`
lookups of `xdp_blocker`. -/
def xdp_blocker_allow (allowSet blacklist : BpfMap) (stats : Stats)
    (pkt : List Nat) : XdpAction × BpfMap × Stats :=
  let stats := update_stats STAT_TOTAL stats
  if pkt.length < 14 then (.XDP_PASS, blacklist, stats)
  else if ethProtoOf pkt ≠ ETH_P_IP then (.XDP_PASS, blacklist, stats)
  else if pkt.length < 34 then (.XDP_PASS, blacklist, stats)
  else if (allowSet (daddrOf pkt)).isSome then (.XDP_PASS, blacklist, stats)
  else if (allowSet (saddrOf pkt)).isSome then (.XDP_PASS, blacklist, stats)
  else
    match blacklist (daddrOf pkt) with
    | some c =>
      (.XDP_DROP, mapUpdateAny blacklist (daddrOf pkt) (c + 1),
        update_stats STAT_BLOCKED stats)
    | none =>
      match blacklist (saddrOf pkt) with
      | some c =>
        (.XDP_DROP, mapUpdateAny blacklist (saddrOf pkt) (c + 1),
          update_stats STAT_BLOCKED stats)
      | none => (.XDP_PASS, blacklist, stats)

/-- C1: a packet whose IPv4 destination or source is in the allow set is
passed by the classifier — it cannot be dropped even if the other endpoint is
in the block set, because the allow-set lookups unconditionally precede the
block-set lookups. -/
theorem claim_C1_allow_precedence (allowSet blacklist : BpfMap)
    (stats : Stats) (pkt : List Nat)
    (h : (allowSet (daddrOf pkt)).isSome ∨ (allowSet (saddrOf pkt)).isSome) :
    (xdp_blocker_allow allowSet blacklist stats pkt).1 = .XDP_PASS := by
  unfold xdp_blocker_allow
  dsimp only
  split
  · rfl
  split
  · rfl
  split
  · rfl
  split
  · rfl
  split
  · rfl
  rename_i hd hs
  rcases h with h | h
  · exact absurd h hd
  · exact absurd h hs

def pktC1 : List Nat :=
  [0, 0, 0, 0, 0, 0, 0, 0, 0, 0, 0, 0, 8, 0,
   0, 0, 0, 0, 0, 0, 0, 0, 0, 0, 0, 0, 9, 0, 0, 0, 1, 2, 3, 4]

def allowC1 : BpfMap := fun k => if k = 67305985 then some 1 else none

def blockC1 : BpfMap := fun k => if k = 9 then some 3 else none

/-- Witness for C1: a well-formed IPv4 frame whose destination 4.3.2.1 is in
the allow set while its source 0.0.0.9 is in the block set is passed. -/
theorem claim_C1_allow_precedence_witness :
    ((allowC1 (daddrOf pktC1)).isSome ∨ (allowC1 (saddrOf pktC1)).isSome) ∧
    (xdp_blocker_allow allowC1 blockC1 { total := 0, blocked := 0 }
      pktC1).1 = .XDP_PASS :=
  ⟨by decide,
   claim_C1_allow_precedence allowC1 blockC1 { total := 0, blocked := 0 }
     pktC1 (by decide)⟩

/-- C4: `stats[TOTAL]` is incremented by exactly 1 for every packet,
whatever the verdict; on a drop, `stats[BLOCKED]` is incremented by exactly 1
and exactly one per-IP counter is incremented by 1 — the counter of the first
matched address, destination checked before source. -/
theorem claim_C4_drop_accounting (blacklist : BpfMap) (stats : Stats)
    (pkt : List Nat) :
    ((xdp_blocker blacklist stats pkt).2.2.total = stats.total + 1) ∧
    (∀ bl stats2, xdp_blocker blacklist stats pkt = (.XDP_DROP, bl, stats2) →
      stats2.blocked = stats.blocked + 1 ∧
      stats2.total = stats.total + 1 ∧
      ((blacklist (daddrOf pkt)).isSome →
        bl (daddrOf pkt) = some ((blacklist (daddrOf pkt)).getD 0 + 1) ∧
        ∀ k, k ≠ daddrOf pkt → bl k = blacklist k) ∧
      ((blacklist (daddrOf pkt)).isNone →
        bl (saddrOf pkt) = some ((blacklist (saddrOf pkt)).getD 0 + 1) ∧
        ∀ k, k ≠ saddrOf pkt → bl k = blacklist k)) := by
  constructor
  · unfold xdp_blocker
    dsimp only
    split
    · rfl
    split
    · rfl
    split
    · rfl
    split
    · rfl
    split
    · rfl
    · rfl
  · intro bl stats2 h
    unfold xdp_blocker at h
    dsimp only at h
    split at h
    · simp at h
    split at h
    · simp at h
    split at h
    · simp at h
    split at h
    · rename_i c hd
      simp only [Prod.mk.injEq] at h
      obtain ⟨-, hbl, hst⟩ := h
      subst hbl hst
      refine ⟨rfl, rfl, ?_, ?_⟩
      · intro _
        rw [hd]
        constructor
        · simp [mapUpdateAny]
        · intro k hk
          simp [mapUpdateAny, hk]
      · intro hnone
        rw [hd] at hnone
        simp at hnone
    · rename_i hd
      split at h
      · rename_i c hs
        simp only [Prod.mk.injEq] at h
        obtain ⟨-, hbl, hst⟩ := h
        subst hbl hst
        refine ⟨rfl, rfl, ?_, ?_⟩
        · intro hsome
          rw [hd] at hsome
          simp at hsome
        · intro _
          rw [hs]
          constructor
          · simp [mapUpdateAny]
          · intro k hk
            simp [mapUpdateAny, hk]
      · simp at h

def pktC4 : List Nat :=
  [0, 0, 0, 0, 0, 0, 0, 0, 0, 0, 0, 0, 8, 0,
   0, 0, 0, 0, 0, 0, 0, 0, 0, 0, 0, 0, 9, 0, 0, 0, 1, 2, 3, 4]

def blockC4 : BpfMap := fun k => if k = 67305985 then some 5 else none

/-- Witness for C4: a frame whose destination 4.3.2.1 has a per-IP counter 5
is dropped; its counter becomes 6, all other keys are untouched, and the
aggregate counters move from (7, 2) to (8, 3). -/
theorem claim_C4_drop_accounting_witness :
    xdp_blocker blockC4 { total := 7, blocked := 2 } pktC4 =
      (.XDP_DROP, mapUpdateAny blockC4 67305985 6,
        { total := 8, blocked := 3 }) ∧
    ∀ bl stats2,
      xdp_blocker blockC4 { total := 7, blocked := 2 } pktC4 =
        (.XDP_DROP, bl, stats2) →
      stats2.blocked = 3 ∧ stats2.total = 8 ∧
      ((blockC4 (daddrOf pktC4)).isSome →
        bl (daddrOf pktC4) = some ((blockC4 (daddrOf pktC4)).getD 0 + 1) ∧
        ∀ k, k ≠ daddrOf pktC4 → bl k = blockC4 k) :=
  ⟨by
    unfold xdp_blocker
    norm_num [pktC4, blockC4, daddrOf, saddrOf, ethProtoOf, ETH_P_IP,
      update_stats, STAT_TOTAL, STAT_BLOCKED],
   fun bl stats2 h =>
    ⟨((claim_C4_drop_accounting blockC4 { total := 7, blocked := 2 }
        pktC4).2 bl stats2 h).1,
     ((claim_C4_drop_accounting blockC4 { total := 7, blocked := 2 }
        pktC4).2 bl stats2 h).2.1,
     ((claim_C4_drop_accounting blockC4 { total := 7, blocked := 2 }
        pktC4).2 bl stats2 h).2.2.1⟩⟩

/-- C5: a packet with a truncated Ethernet or IPv4 header, or a non-IPv4
EtherType, is passed — never dropped — with `stats[BLOCKED]` and the block
map unchanged. -/
theorem claim_C5_malformed_pass (blacklist : BpfMap) (stats : Stats)
    (pkt : List Nat)
    (h : pkt.length < 34 ∨ ethProtoOf pkt ≠ ETH_P_IP) :
    (xdp_blocker blacklist stats pkt).1 = .XDP_PASS ∧
    (xdp_blocker blacklist stats pkt).2.1 = blacklist ∧
    (xdp_blocker blacklist stats pkt).2.2.blocked = stats.blocked := by
  unfold xdp_blocker
  dsimp only
  split
  · exact ⟨rfl, rfl, rfl⟩
  split
  · exact ⟨rfl, rfl, rfl⟩
  split
  · exact ⟨rfl, rfl, rfl⟩
  rename_i h14 hproto h34
  rcases h with h | h
  · exact absurd h h34
  · exact absurd h hproto

/-- Witness for C5: a 14-byte frame (pure L2 header, truncated L3) is passed
without incrementing `stats[BLOCKED]` and without touching the block map. -/
theorem claim_C5_malformed_pass_witness :
    ((List.replicate 14 0).length < 34 ∨
      ethProtoOf (List.replicate 14 0) ≠ ETH_P_IP) ∧
    ((xdp_blocker blockC1 { total := 0, blocked := 0 }
        (List.replicate 14 0)).1 = .XDP_PASS ∧
      (xdp_blocker blockC1 { total := 0, blocked := 0 }
        (List.replicate 14 0)).2.1 = blockC1 ∧
      (xdp_blocker blockC1 { total := 0, blocked := 0 }
        (List.replicate 14 0)).2.2.blocked = 0) :=
  ⟨by decide,
   claim_C5_malformed_pass blockC1 { total := 0, blocked := 0 }
     (List.replicate 14 0) (by decide)⟩

/-! ## Domain store (src/unnamed/part_002) -/

def DOMAIN_MAX_SIZE : Nat := 256

def MAX_DOMAINS : Nat := 10000

/-- `struct domain_entry` of resolver.h: the entry name, its aggregated drop
count, the deduplicated list of resolved IPs (host byte order) and the
current capacity of that array. -/
structure DomainEntry where
  domain : String
  total_drops : Nat
  resolved_ips : List Nat
  ip_capacity : Nat
  deriving DecidableEq, Repr

/-- The global domain store: `initialized` models `domains != NULL`. -/
structure DomainStore where
  initialized : Bool
  entries : List DomainEntry
  deriving DecidableEq, Repr

/-- `domain_store_init`: allocate the (empty) store once; later calls leave
an already-initialized store untouched. -/
def domain_store_init (store : DomainStore) : DomainStore :=
  if store.initialized then store else { initialized := true, entries := [] }

/-- `domain_store_cleanup`: free everything; `domains` becomes NULL. -/
def domain_store_cleanup (_store : DomainStore) : DomainStore :=
  { initialized := false, entries := [] }

/-- `strncpy(dst, domain, DOMAIN_MAX_SIZE - 1)` followed by forced NUL:
keeps at most the first 255 characters. -/
def strncpyDomain (s : String) : String :=
  ⟨s.data.take (DOMAIN_MAX_SIZE - 1)⟩

/-- The entry appended by `domain_store_add`: truncated name, then
`init_domain_ips` (no IPs yet, capacity 4, zero drops). -/
def new_domain_entry (domain : String) : DomainEntry :=
  { domain := strncpyDomain domain, total_drops := 0,
    resolved_ips := [], ip_capacity := 4 }

/-- `domain_store_add`: `-1` if the store is not initialized; `0` if the name
is already present (store unchanged); `-1` if the store is full; otherwise
append a fresh entry and return `0`. -/
def domain_store_add (store : DomainStore) (domain : String) :
    Int × DomainStore :=
  if !store.initialized then (-1, store)
  else if store.entries.any (fun e => e.domain == domain) then (0, store)
  else if MAX_DOMAINS ≤ store.entries.length then (-1, store)
  else
    (0, { store with entries := store.entries ++ [new_domain_entry domain] })

def domain_store_get_count (store : DomainStore) : Nat :=
  store.entries.length

/-- 32-bit byte swap: `ntohl` on the little-endian x86 host. -/
def ntohl (x : Nat) : Nat :=
  x % 256 * 16777216 + x / 256 % 256 * 65536 + x / 65536 % 256 * 256 +
    x / 16777216 % 256

/-- `htonl` is the same byte swap. -/
def htonl (x : Nat) : Nat := ntohl x

/-- `add_ip_to_domain`: no-op if the IP is already recorded; otherwise double
the capacity when exhausted and append. -/
def add_ip_to_domain (e : DomainEntry) (ip : Nat) : DomainEntry :=
  if ip ∈ e.resolved_ips then e
  else
    { e with
      ip_capacity :=
        if e.ip_capacity ≤ e.resolved_ips.length then 2 * e.ip_capacity
        else e.ip_capacity,
      resolved_ips := e.resolved_ips ++ [ip] }

/-- The per-address body of `resolve_domain_to_ip`'s loop: for each returned
`s_addr` (network order), record `ntohl` of it in the entry and update the
block map at key `htonl(host_ip)` with value 0 under `BPF_ANY`. -/
def resolve_addr_step (p : DomainEntry × BpfMap) (a : Nat) :
    DomainEntry × BpfMap :=
  let host_ip := ntohl a
  (add_ip_to_domain p.1 host_ip, mapUpdateAny p.2 (htonl host_ip) 0)

/-- The entry-scan of `resolve_domain_to_ip`: find the first entry whose name
matches, run the address loop on it, and report whether a match was found. -/
def resolve_loop (domain : String) (addrs : List Nat) :
    List DomainEntry → BpfMap → Bool × List DomainEntry × BpfMap
  | [], bm => (false, [], bm)
  | e :: rest, bm =>
    if e.domain == domain then
      let p := addrs.foldl resolve_addr_step (e, bm)
      (true, p.1 :: rest, p.2)
    else
      let r := resolve_loop domain addrs rest bm
      (r.1, e :: r.2.1, r.2.2)

/-- `resolve_domain_to_ip`: `gethostbyname` failure or an empty address list
returns `-1`; a name absent from the store returns `-1` without touching the
map; otherwise every returned address is recorded and written to the block
map. `dns` models the host resolver: `none` is a lookup failure, the list
elements are the `h_addr_list` entries (`s_addr`, network byte order). -/
def resolve_domain_to_ip (dns : String → Option (List Nat)) (domain : String)
    (store : DomainStore) (bm : BpfMap) : Int × DomainStore × BpfMap :=
  match dns domain with
  | none => (-1, store, bm)
  | some [] => (-1, store, bm)
  | some addrs =>
    let r := resolve_loop domain addrs store.entries bm
    if r.1 then (0, { store with entries := r.2.1 }, r.2.2)
    else (-1, store, bm)

/-- `domain_store_resolve_all`: resolve every stored domain in order.  The C
loop reads `domains[i].domain` for the indices present at entry; resolution
never changes a `.domain` field or the entry count, so iterating over the
initial name list is equivalent. -/
def domain_store_resolve_all (dns : String → Option (List Nat))
    (store : DomainStore) (bm : BpfMap) : DomainStore × BpfMap :=
  (store.entries.map (fun e => e.domain)).foldl
    (fun p name =>
      let r := resolve_domain_to_ip dns name p.1 p.2
      (r.2.1, r.2.2))
    (store, bm)

/-- Per-entry rollup of `domain_store_update_drop_counts`: sum the block-map
values over the entry's resolved IPs (keys converted with `htonl`), counting
a missed lookup as 0, and overwrite `total_drops` with that sum. -/
def update_drop_entry (bm : BpfMap) (e : DomainEntry) : DomainEntry :=
  { e with
    total_drops :=
      e.resolved_ips.foldl
        (fun acc ip =>
          match bm (htonl ip) with
          | some c => acc + c
          | none => acc)
        0 }

/-- `domain_store_update_drop_counts`: recompute every entry's drop count
from the block map. -/
def domain_store_update_drop_counts (bm : BpfMap) (store : DomainStore) :
    DomainStore :=
  { store with entries := store.entries.map (update_drop_entry bm) }

/-! ## Claims C8, C9, C10, C2 -/

theorem take_eq_self_of_le {α : Type} (l : List α) (n : Nat)
    (h : l.length ≤ n) : l.take n = l :=
  List.take_of_length_le h

theorem strncpyDomain_eq_self (s : String) (h : s.length ≤ 255) :
    strncpyDomain s = s := by
  unfold strncpyDomain
  cases s with
  | mk data =>
    simp only [String.length] at h
    simp [DOMAIN_MAX_SIZE, take_eq_self_of_le data 255 h]

/-- C8: on an initialized registry, `add` returns 0 both when the name is new
and when it is already present; a non-zero return can happen only when the
registry already holds `MAX_DOMAINS` (10,000) entries; and a second add of
the same name leaves the registry unchanged. -/
theorem claim_C8_add_idempotent (store : DomainStore) (name : String)
    (hinit : store.initialized = true) (hlen : name.length ≤ 255) :
    (store.entries.any (fun e => e.domain == name) = true →
      domain_store_add store name = (0, store)) ∧
    (store.entries.any (fun e => e.domain == name) = false →
      store.entries.length < MAX_DOMAINS →
      (domain_store_add store name).1 = 0) ∧
    ((domain_store_add store name).1 ≠ 0 →
      MAX_DOMAINS ≤ store.entries.length) ∧
    ((domain_store_add (domain_store_add store name).2 name).2 =
      (domain_store_add store name).2) := by
  have hadd0 : ∀ s : DomainStore, s.initialized = true →
      s.entries.any (fun e => e.domain == name) = true →
      domain_store_add s name = (0, s) := by
    intro s hi hm
    unfold domain_store_add
    simp [hi, hm]
  by_cases hmem : store.entries.any (fun e => e.domain == name) = true
  · have h1 := hadd0 store hinit hmem
    refine ⟨fun _ => h1, ?_, ?_, ?_⟩
    · intro hmem2 _
      rw [hmem] at hmem2
      cases hmem2
    · rw [h1]
      intro hne
      exact absurd rfl hne
    · rw [h1]
      exact congrArg Prod.snd (hadd0 store hinit hmem)
  · rw [Bool.not_eq_true] at hmem
    by_cases hfull : MAX_DOMAINS ≤ store.entries.length
    · have h1 : domain_store_add store name = (-1, store) := by
        unfold domain_store_add
        simp [hinit, hmem, hfull]
      refine ⟨fun hmem2 => ?_, fun _ hlt => absurd hfull (by omega), ?_, ?_⟩
      · rw [hmem] at hmem2
        cases hmem2
      · intro _
        exact hfull
      · rw [h1]
        rw [h1]
    · have h1 : domain_store_add store name =
          (0, { store with entries := store.entries ++ [new_domain_entry name] }) := by
        unfold domain_store_add
        simp [hinit, hmem, hfull]
      refine ⟨fun hmem2 => ?_, fun _ _ => by rw [h1], fun hne => ?_, ?_⟩
      · rw [hmem] at hmem2
        cases hmem2
      · rw [h1] at hne
        exact absurd rfl hne
      · rw [h1]
        have hlast :
            (store.entries ++ [new_domain_entry name]).any
              (fun e => e.domain == name) = true := by
          rw [List.any_append]
          simp [new_domain_entry, strncpyDomain_eq_self name hlen]
        exact congrArg Prod.snd
          (hadd0 { store with entries := store.entries ++ [new_domain_entry name] }
            hinit hlast)

def storeC8 : DomainStore :=
  { initialized := true,
    entries := [{ domain := "ads.example.com", total_drops := 0,
                  resolved_ips := [], ip_capacity := 4 }] }

/-- Witness for C8: adding "ads.example.com" to a registry already holding it
returns 0 and changes nothing; a second add of a fresh name is likewise
absorbed. -/
theorem claim_C8_add_idempotent_witness :
    (storeC8.entries.any (fun e => e.domain == "ads.example.com") = true →
      domain_store_add storeC8 "ads.example.com" = (0, storeC8)) ∧
    ((domain_store_add
        (domain_store_add storeC8 "ads.example.com").2 "ads.example.com").2 =
      (domain_store_add storeC8 "ads.example.com").2) :=
  ⟨(claim_C8_add_idempotent storeC8 "ads.example.com" (by decide)
      (by decide)).1,
   (claim_C8_add_idempotent storeC8 "ads.example.com" (by decide)
      (by decide)).2.2.2⟩

/-- C9: before `domain_store_init` (or after `domain_store_cleanup`) the
store pointer is NULL, so `add` returns -1 for every name without modifying
any state — even though the capacity is not exhausted. -/
theorem claim_C9_uninitialized_add (store : DomainStore) (name : String)
    (h : store.initialized = false) :
    domain_store_add store name = (-1, store) ∧
    (∀ s : DomainStore,
      domain_store_add (domain_store_cleanup s) name =
        (-1, domain_store_cleanup s)) := by
  constructor
  · unfold domain_store_add
    simp [h]
  · intro s
    unfold domain_store_add domain_store_cleanup
    simp

/-- Witness for C9: adding to a never-initialized empty store (capacity far
from exhausted) fails with -1 and leaves the store unchanged. -/
theorem claim_C9_uninitialized_add_witness :
    domain_store_add { initialized := false, entries := [] }
      "ads.example.com" = (-1, { initialized := false, entries := [] }) ∧
    (∀ s : DomainStore,
      domain_store_add (domain_store_cleanup s) "ads.example.com" =
        (-1, domain_store_cleanup s)) :=
  claim_C9_uninitialized_add { initialized := false, entries := [] }
    "ads.example.com" (by decide)

theorem update_drop_fold (bm : BpfMap) (l : List Nat) (acc : Nat) :
    l.foldl
      (fun acc ip =>
        match bm (htonl ip) with
        | some c => acc + c
        | none => acc)
      acc = acc + (l.map (fun ip => (bm (htonl ip)).getD 0)).sum := by
  induction l generalizing acc with
  | nil => simp
  | cons ip rest ih =>
    cases hbm : bm (htonl ip) with
    | none =>
      simp only [List.foldl_cons, hbm, List.map_cons, List.sum_cons]
      rw [ih]
      simp
    | some c =>
      simp only [List.foldl_cons, hbm, List.map_cons, List.sum_cons]
      rw [ih]
      simp only [Option.getD_some]
      exact Nat.add_assoc acc c _

/-- C10: `update_drops` recomputes each entry's drop count from scratch: the
new value is exactly the sum of the current block-map values over the entry's
resolved IPs (a missing key contributes 0) and does not depend on the
previous `total_drops`; the name and IP list are untouched.  In particular
the count can decrease between calls. -/
theorem claim_C10_update_drops_recomputes (bm : BpfMap) (store : DomainStore)
    (i : Nat) (h : i < store.entries.length) :
    ∃ h2 : i < (domain_store_update_drop_counts bm store).entries.length,
      ((domain_store_update_drop_counts bm store).entries.get
          ⟨i, h2⟩).total_drops =
        ((store.entries.get ⟨i, h⟩).resolved_ips.map
          (fun ip => (bm (htonl ip)).getD 0)).sum ∧
      ((domain_store_update_drop_counts bm store).entries.get
          ⟨i, h2⟩).domain = (store.entries.get ⟨i, h⟩).domain ∧
      ((domain_store_update_drop_counts bm store).entries.get
          ⟨i, h2⟩).resolved_ips = (store.entries.get ⟨i, h⟩).resolved_ips := by
  have h2 : i < (domain_store_update_drop_counts bm store).entries.length := by
    simpa [domain_store_update_drop_counts] using h
  refine ⟨h2, ?_, ?_, ?_⟩ <;>
    simp [domain_store_update_drop_counts, update_drop_entry,
      update_drop_fold]

def storeC10 : DomainStore :=
  { initialized := true,
    entries := [{ domain := "ads.example.com", total_drops := 10,
                  resolved_ips := [5], ip_capacity := 4 }] }

def bmC10 : BpfMap := fun k => if k = 83886080 then some 3 else none

/-- Witness for C10: an entry whose previous count was 10 is overwritten with
the current map sum 3 — the count decreased. -/
theorem claim_C10_update_drops_recomputes_witness :
    ∃ h2 : 0 < (domain_store_update_drop_counts bmC10 storeC10).entries.length,
      ((domain_store_update_drop_counts bmC10 storeC10).entries.get
          ⟨0, h2⟩).total_drops =
        ((storeC10.entries.get ⟨0, by decide⟩).resolved_ips.map
          (fun ip => (bmC10 (htonl ip)).getD 0)).sum ∧
      ((domain_store_update_drop_counts bmC10 storeC10).entries.get
          ⟨0, h2⟩).domain = (storeC10.entries.get ⟨0, by decide⟩).domain ∧
      ((domain_store_update_drop_counts bmC10 storeC10).entries.get
          ⟨0, h2⟩).resolved_ips =
        (storeC10.entries.get ⟨0, by decide⟩).resolved_ips :=
  claim_C10_update_drops_recomputes bmC10 storeC10 0 (by decide)

def dnsC2 : String → Option (List Nat) :=
  fun d => if d = "ads.example.com" then some [5] else none

def storeC2 : DomainStore :=
  { initialized := true,
    entries := [{ domain := "ads.example.com", total_drops := 0,
                  resolved_ips := [], ip_capacity := 4 }] }

def bmC2 : BpfMap := fun k => if k = 5 then some 7 else none

/-- C2 (refuted): re-resolving a registered domain to an address already in
the block map does NOT leave the per-IP drop counter unchanged: the
`bpf_map_update_elem(..., BPF_ANY)` call overwrites the existing entry with
value 0.  Here the counter for key 5 is 7 before the re-insert and 0 after,
so per-IP counters are not monotone after start. -/
theorem claim_C2_reinsert_resets_counter :
    bmC2 5 = some 7 ∧
    (resolve_domain_to_ip dnsC2 "ads.example.com" storeC2 bmC2).2.2 5 =
      some 0 := by
  constructor
  · rfl
  · rfl

/-! ## List-file line parsing (src/unnamed/part_002, `strtok(line, " \t\n#")`) -/

/-- The delimiter set passed to `strtok` by `load_whitelist_patterns` and
`whitelist_resolver_update`: space, tab, newline — and `#`. -/
def strtok_delims : List Char := [' ', '\t', '\n', '#']

/-- One `strtok(line, " \t\n#")` call followed by the
`if (!domain || domain[0] == '#') continue;` guard: skip leading delimiters,
return NULL when nothing is left, otherwise the maximal run of
non-delimiters; the guard rejects a token starting with `#` (unreachable,
since `#` is itself a delimiter). -/
def parse_list_line (line : String) : Option String :=
  let rest := line.data.dropWhile (fun c => strtok_delims.contains c)
  match rest with
  | [] => none
  | c :: _ =>
    if c = '#' then none
    else some ⟨rest.takeWhile (fun c => !strtok_delims.contains c)⟩

/-- C7 (refuted on full-line comments): `ENTRY # comment` does yield `ENTRY`
and an empty line yields nothing, but a full-line comment with text after the
`#` yields the first comment word as an entry, because `#` sits in the
`strtok` delimiter set and is silently skipped, making the `domain[0]=='#'`
guard dead code. -/
theorem claim_C7_comment_line_parsed :
    parse_list_line ("ENTRY # comment") = some ("ENTRY") ∧
    parse_list_line ("") = none ∧
    parse_list_line ("   ") = none ∧
    parse_list_line ("# full-line comment") = some ("full-line") := by
  refine ⟨?_, ?_, ?_, ?_⟩ <;> rfl

/-! ## Glob matching (`fnmatch(pattern, string, 0)`) -/

/-- Scan a bracket-expression body up to the closing `]`; `none` when the
class is never closed. -/
def splitClassAux : List Char → Option (List Char × List Char)
  | [] => none
  | c :: cs =>
    if c = ']' then some ([], cs)
    else
      match splitClassAux cs with
      | none => none
      | some (body, rest) => some (c :: body, rest)

/-- Decompose the characters following `[` into (negated?, class body, rest
of the pattern); a `]` right after `[` or `[!` is a literal member. -/
def classBody : List Char → Option (Bool × List Char × List Char)
  | '!' :: ']' :: cs =>
    match splitClassAux cs with
    | none => none
    | some (body, rest) => some (true, ']' :: body, rest)
  | '!' :: cs =>
    match splitClassAux cs with
    | none => none
    | some (body, rest) => some (true, body, rest)
  | ']' :: cs =>
    match splitClassAux cs with
    | none => none
    | some (body, rest) => some (false, ']' :: body, rest)
  | cs =>
    match splitClassAux cs with
    | none => none
    | some (body, rest) => some (false, body, rest)

/-- Membership of a character in a bracket-expression body, with `a-b`
ranges. -/
def memClass (c : Char) : List Char → Bool
  | a :: '-' :: b :: rest =>
    (decide (a ≤ c) && decide (c ≤ b)) || memClass c rest
  | a :: rest => decide (a = c) || memClass c rest
  | [] => false

/-- Shell-glob matching as performed by `fnmatch(pattern, string, 0)`:
`*` matches any run, `?` any single character, `[...]` a class (with ranges
and `!` negation), `\` escapes, and an unterminated `[` is literal. -/
def globMatch : List Char → List Char → Bool
  | [], [] => true
  | [], _ :: _ => false
  | '*' :: p, [] => globMatch p []
  | '*' :: p, c :: s => globMatch p (c :: s) || globMatch ('*' :: p) s
  | '?' :: p, _ :: s => globMatch p s
  | '\\' :: a :: p, c :: s => decide (a = c) && globMatch p s
  | '[' :: p, c :: s =>
    match classBody p with
    | some (neg, body, rest) => (memClass c body != neg) && globMatch rest s
    | none => decide ('[' = c) && globMatch p s
  | a :: p, c :: s => decide (a = c) && globMatch p s
  | _ :: _, [] => false
  termination_by p s => (s.length, p.length)

/-! ## Whitelist resolver (src/unnamed/part_002, `whitelist_resolver_update`) -/

/-- The inner IP loop of both whitelist passes: every resolved `s_addr` is
inserted into the whitelist map with value 1 (`BPF_ANY`). -/
def whitelist_add_ips (am : BpfMap) (ips : List Nat) : BpfMap :=
  ips.foldl (fun am ip => mapUpdateAny am ip 1) am

/-- Per-line step of `whitelist_resolver_update`'s first pass: parse the
blacklist line; when the entry matches some whitelist pattern, resolve it
(the `dns` model already restricts to `AF_INET` results) and whitelist every
returned address. -/
def whitelist_line_step (dns : String → Option (List Nat))
    (patterns : List String) (am : BpfMap) (line : String) : BpfMap :=
  match parse_list_line line with
  | none => am
  | some domain =>
    if patterns.any (fun w => globMatch w.data domain.data) then
      match dns domain with
      | some ips => whitelist_add_ips am ips
      | none => am
    else am

/-- Per-pattern step of the second pass: patterns without a `*` wildcard are
resolved directly and their addresses whitelisted. -/
def whitelist_pattern_step (dns : String → Option (List Nat)) (am : BpfMap)
    (w : String) : BpfMap :=
  if w.data.contains '*' then am
  else
    match dns w with
    | some ips => whitelist_add_ips am ips
    | none => am

/-- `whitelist_resolver_update`: nothing happens when no patterns are loaded;
otherwise pass 1 walks the blacklist file lines and pass 2 the explicit
(wildcard-free) patterns.  Only the whitelist map is written. -/
def whitelist_resolver_update (dns : String → Option (List Nat))
    (patterns blacklistLines : List String) (am : BpfMap) : BpfMap :=
  if patterns.isEmpty then am
  else
    patterns.foldl (whitelist_pattern_step dns)
      (blacklistLines.foldl (whitelist_line_step dns patterns) am)

/-- Modelled from the spec: the adblocker main that wires
`whitelist_resolver_update` into the resolver loop is not in this snapshot —
`resolver_thread_func` in src/unnamed/part_006 predates the whitelist map,
while `whitelist_resolver_update` itself and its header declaration are
present.  Per spec §4.6 one resolver iteration performs the blacklist
resolve pass, the allow-set passes, and the drop-count rollup. -/
def resolver_iteration (dns : String → Option (List Nat))
    (patterns blacklistLines : List String) (store : DomainStore)
    (blockMap allowMap : BpfMap) : DomainStore × BpfMap × BpfMap :=
  let p := domain_store_resolve_all dns store blockMap
  let am := whitelist_resolver_update dns patterns blacklistLines allowMap
  (domain_store_update_drop_counts p.2 p.1, p.2, am)

theorem foldl_preserves {σ α : Type} (P : σ → Prop) (f : σ → α → σ)
    (hf : ∀ s a, P s → P (f s a)) :
    ∀ (l : List α) (s : σ), P s → P (l.foldl f s) := by
  intro l
  induction l with
  | nil => intro s h; exact h
  | cons a rest ih => intro s h; exact ih (f s a) (hf s a h)

theorem mapUpdateAny_isSome (m : BpfMap) (k v q : Nat)
    (h : (m q).isSome = true) : ((mapUpdateAny m k v) q).isSome = true := by
  unfold mapUpdateAny
  by_cases hq : q = k <;> simp [hq, h]

theorem whitelist_add_ips_isSome (am : BpfMap) (ips : List Nat) (q : Nat)
    (h : (am q).isSome = true) :
    ((whitelist_add_ips am ips) q).isSome = true :=
  foldl_preserves (fun m => (m q).isSome = true)
    (fun am ip => mapUpdateAny am ip 1)
    (fun am ip hp => mapUpdateAny_isSome am ip 1 q hp) ips am h

theorem whitelist_add_ips_keeps_one (am : BpfMap) (ips : List Nat) (q : Nat)
    (h : am q = some 1) : (whitelist_add_ips am ips) q = some 1 :=
  foldl_preserves (fun m => m q = some 1)
    (fun am ip => mapUpdateAny am ip 1)
    (fun am ip hp => by
      unfold mapUpdateAny
      by_cases hq : q = ip <;> simp [hq, hp]) ips am h

theorem whitelist_add_ips_mem (am : BpfMap) (ips : List Nat) (q : Nat)
    (h : q ∈ ips) : (whitelist_add_ips am ips) q = some 1 := by
  induction ips generalizing am with
  | nil => cases h
  | cons ip rest ih =>
    rcases List.mem_cons.mp h with h | h
    · subst h
      by_cases hrest : q ∈ rest
      · exact ih (mapUpdateAny am q 1) hrest
      · unfold whitelist_add_ips
        simp only [List.foldl_cons]
        exact whitelist_add_ips_keeps_one _ rest q (by simp [mapUpdateAny])
    · exact ih (mapUpdateAny am ip 1) h

theorem whitelist_line_step_isSome (dns : String → Option (List Nat))
    (patterns : List String) (am : BpfMap) (line : String) (q : Nat)
    (h : (am q).isSome = true) :
    ((whitelist_line_step dns patterns am line) q).isSome = true := by
  unfold whitelist_line_step
  cases parse_list_line line with
  | none => exact h
  | some domain =>
    dsimp only
    split
    · cases dns domain with
      | none => exact h
      | some ips => exact whitelist_add_ips_isSome am ips q h
    · exact h

theorem whitelist_line_step_keeps_one (dns : String → Option (List Nat))
    (patterns : List String) (am : BpfMap) (line : String) (q : Nat)
    (h : am q = some 1) :
    (whitelist_line_step dns patterns am line) q = some 1 := by
  unfold whitelist_line_step
  cases parse_list_line line with
  | none => exact h
  | some domain =>
    dsimp only
    split
    · cases dns domain with
      | none => exact h
      | some ips => exact whitelist_add_ips_keeps_one am ips q h
    · exact h

theorem whitelist_pattern_step_isSome (dns : String → Option (List Nat))
    (am : BpfMap) (w : String) (q : Nat) (h : (am q).isSome = true) :
    ((whitelist_pattern_step dns am w) q).isSome = true := by
  unfold whitelist_pattern_step
  split
  · exact h
  · cases dns w with
    | none => exact h
    | some ips => exact whitelist_add_ips_isSome am ips q h

theorem whitelist_pattern_step_keeps_one (dns : String → Option (List Nat))
    (am : BpfMap) (w : String) (q : Nat) (h : am q = some 1) :
    (whitelist_pattern_step dns am w) q = some 1 := by
  unfold whitelist_pattern_step
  split
  · exact h
  · cases dns w with
    | none => exact h
    | some ips => exact whitelist_add_ips_keeps_one am ips q h

theorem whitelist_lines_establish (dns : String → Option (List Nat))
    (patterns : List String) (B : String)
    (hany : patterns.any (fun w => globMatch w.data B.data) = true)
    (ips : List Nat) (hips : dns B = some ips) (q : Nat) (hq : q ∈ ips) :
    ∀ (lines : List String) (am : BpfMap),
      B ∈ lines.filterMap parse_list_line →
      (lines.foldl (whitelist_line_step dns patterns) am) q = some 1 := by
  intro lines
  induction lines with
  | nil => intro am h; cases h
  | cons line rest ih =>
    intro am hmem
    rw [List.filterMap_cons] at hmem
    simp only [List.foldl_cons]
    cases hparse : parse_list_line line with
    | none =>
      rw [hparse] at hmem
      have hid : whitelist_line_step dns patterns am line = am := by
        unfold whitelist_line_step
        rw [hparse]
      rw [hid]
      exact ih am hmem
    | some d =>
      rw [hparse] at hmem
      rcases List.mem_cons.mp hmem with hd | hmem2
      · subst hd
        have hstep : (whitelist_line_step dns patterns am line) q = some 1 := by
          unfold whitelist_line_step
          rw [hparse]
          dsimp only
          rw [if_pos hany, hips]
          exact whitelist_add_ips_mem am ips q hq
        exact foldl_preserves (fun m => m q = some 1)
          (whitelist_line_step dns patterns)
          (fun am line hp =>
            whitelist_line_step_keeps_one dns patterns am line q hp)
          rest _ hstep
      · exact ih (whitelist_line_step dns patterns am line) hmem2

/-- C3: after a resolver iteration, for every whitelist pattern W and every
blacklist entry B (as parsed from the file lines) with W glob-matching B,
every IP currently resolved for B is in the allow map (value 1); moreover the
iteration never removes keys from the allow map or from the block map. -/
theorem claim_C3_whitelist_precedence (dns : String → Option (List Nat))
    (patterns blacklistLines : List String) (store : DomainStore)
    (blockMap allowMap : BpfMap) :
    (∀ W, W ∈ patterns →
      ∀ B, B ∈ blacklistLines.filterMap parse_list_line →
      globMatch W.data B.data = true →
      ∀ ip, ip ∈ (dns B).getD [] →
        (resolver_iteration dns patterns blacklistLines store blockMap
          allowMap).2.2 ip = some 1) ∧
    (∀ k, (allowMap k).isSome = true →
      ((resolver_iteration dns patterns blacklistLines store blockMap
        allowMap).2.2 k).isSome = true) ∧
    (∀ k, (blockMap k).isSome = true →
      ((resolver_iteration dns patterns blacklistLines store blockMap
        allowMap).2.1 k).isSome = true) := by
  refine ⟨?_, ?_, ?_⟩
  · intro W hW B hB hglob ip hip
    show (whitelist_resolver_update dns patterns blacklistLines allowMap) ip =
      some 1
    have hne : patterns.isEmpty = false := by
      cases patterns with
      | nil => cases hW
      | cons a l => rfl
    unfold whitelist_resolver_update
    simp only [hne, Bool.false_eq_true, if_false]
    have hany : patterns.any (fun w => globMatch w.data B.data) = true :=
      List.any_eq_true.mpr ⟨W, hW, hglob⟩
    cases hips : dns B with
    | none =>
      rw [hips] at hip
      cases hip
    | some ips =>
      rw [hips] at hip
      simp only [Option.getD_some] at hip
      have h1 := whitelist_lines_establish dns patterns B hany ips hips ip hip
        blacklistLines allowMap hB
      exact foldl_preserves (fun m => m ip = some 1)
        (whitelist_pattern_step dns)
        (fun am w hp => whitelist_pattern_step_keeps_one dns am w ip hp)
        patterns _ h1
  · intro k hk
    show ((whitelist_resolver_update dns patterns blacklistLines allowMap)
      k).isSome = true
    unfold whitelist_resolver_update
    split
    · exact hk
    · refine foldl_preserves (fun m => (m k).isSome = true)
        (whitelist_pattern_step dns)
        (fun am w hp => whitelist_pattern_step_isSome dns am w k hp)
        patterns _ ?_
      exact foldl_preserves (fun m => (m k).isSome = true)
        (whitelist_line_step dns patterns)
        (fun am line hp =>
          whitelist_line_step_isSome dns patterns am line k hp)
        blacklistLines allowMap hk
  · intro k hk
    show ((domain_store_resolve_all dns store blockMap).2 k).isSome = true
    have hstep : ∀ (p : DomainStore × BpfMap) (name : String),
        (p.2 k).isSome = true →
        (((fun p name =>
            let r := resolve_domain_to_ip dns name p.1 p.2
            ((r.2.1 : DomainStore), r.2.2))
          p name).2 k).isSome = true := by
      intro p name hp
      dsimp only
      unfold resolve_domain_to_ip
      cases dns name with
      | none => exact hp
      | some addrs =>
        cases addrs with
        | nil => exact hp
        | cons a rest =>
          dsimp only
          have hloop : ∀ (entries : List DomainEntry) (bm : BpfMap),
              (bm k).isSome = true →
              (((resolve_loop name (a :: rest) entries bm).2.2) k).isSome =
                true := by
            intro entries
            induction entries with
            | nil => intro bm hbm; exact hbm
            | cons e es ih =>
              intro bm hbm
              unfold resolve_loop
              split
              · dsimp only
                refine foldl_preserves
                  (fun (pr : DomainEntry × BpfMap) => (pr.2 k).isSome = true)
                  resolve_addr_step
                  (fun pr x hpr => ?_) (a :: rest) (e, bm) hbm
                unfold resolve_addr_step
                exact mapUpdateAny_isSome pr.2 (htonl (ntohl x)) 0 k hpr
              · exact ih bm hbm
          split
          · dsimp only
            exact hloop p.1.entries p.2 hp
          · exact hp
    exact (foldl_preserves
      (fun (p : DomainStore × BpfMap) => (p.2 k).isSome = true) _
      hstep (store.entries.map (fun e => e.domain)) (store, blockMap) hk)

def dnsC3 : String → Option (List Nat) :=
  fun d => if d = "ads.example.com" then some [9] else none

/-- Witness for C3: with pattern `*.example.com`, a blacklist file line
`ads.example.com # spotify`, and a resolver returning address 9 for that
entry, address 9 is in the allow map after the iteration. -/
theorem claim_C3_whitelist_precedence_witness :
    (resolver_iteration dnsC3 ["*.example.com"]
      ["ads.example.com # spotify"] { initialized := true, entries := [] }
      (fun _ => none) (fun _ => none)).2.2 9 = some 1 :=
  (claim_C3_whitelist_precedence dnsC3 ["*.example.com"]
      ["ads.example.com # spotify"] { initialized := true, entries := [] }
      (fun _ => none) (fun _ => none)).1
    "*.example.com" (by decide) "ads.example.com" (by decide)
    (by simp [globMatch]) 9 (by decide)

/-! ## Statistics exporter (src/unnamed/part_006, `write_stats_to_file`,
`domain_store_write_stats_file`, and the 2-second main loop) -/

def digitChar (d : Nat) : Char := Char.ofNat (48 + d)

/-- Decimal rendering of a `%llu` conversion. -/
def natDigits (n : Nat) : List Char :=
  if n < 10 then [digitChar n]
  else natDigits (n / 10) ++ [digitChar (n % 10)]
  termination_by n
  decreasing_by omega

/-- The character stream emitted by
`fprintf(fp, "total: %llu\nblocked: %llu\n", total, blocked)`, written after
`fopen("/tmp/ebaf-stats.dat", "w")` truncated the file — so each write is the
whole file content. -/
def write_stats_content (total blocked : Nat) : List Char :=
  "total: ".data ++ natDigits total ++ '\n' ::
    ("blocked: ".data ++ natDigits blocked ++ ['\n'])

/-- One `fprintf(fp, "%s:%llu\n", ...)` payload without its newline. -/
def domain_stats_line (e : DomainEntry) : List Char :=
  e.domain.data ++ ':' :: natDigits e.total_drops

/-- The whole content of `/tmp/ebaf-domain-stats.dat` as written by
`domain_store_write_stats_file` (again after truncation by `fopen` mode
`"w"`): one line per entry with `total_drops > 0`, in store order. -/
def domain_stats_content (entries : List DomainEntry) : List Char :=
  entries.foldl
    (fun acc e =>
      if 0 < e.total_drops then acc ++ (domain_stats_line e ++ ['\n'])
      else acc)
    []

/-- The write schedule of the main loop of adblocker.c: each second `now`
advances by 1 and both files are rewritten via `write_stats_to_file` whenever
`now - last_stats_write >= 2` (rendered as `last + 2 ≤ now` on `Nat`).
Returns the times at which writes happen during `n` ticks. -/
def stats_write_times : Nat → Nat → Nat → List Nat
  | 0, _, _ => []
  | n + 1, now, last =>
    if last + 2 ≤ now + 1 then
      (now + 1) :: stats_write_times n (now + 1) (now + 1)
    else stats_write_times n (now + 1) last

/-- Splitting a character stream at every newline; a trailing newline yields
a final empty component. -/
def splitLines : List Char → List (List Char)
  | [] => [[]]
  | c :: cs =>
    if c = '\n' then [] :: splitLines cs
    else
      match splitLines cs with
      | [] => [[c]]
      | l :: ls => (c :: l) :: ls

theorem natDigits_digit (n : Nat) :
    ∀ c ∈ natDigits n, ∃ d, d < 10 ∧ c = digitChar d := by
  induction n using Nat.strong_induction_on with
  | _ n ih =>
    intro c hc
    unfold natDigits at hc
    split at hc
    · rename_i h
      rw [List.mem_singleton] at hc
      exact ⟨n, h, hc⟩
    · rename_i h
      rcases List.mem_append.mp hc with h1 | h1
      · exact ih (n / 10) (Nat.div_lt_self (by omega) (by omega)) c h1
      · rw [List.mem_singleton] at h1
        exact ⟨n % 10, Nat.mod_lt _ (by omega), h1⟩

theorem natDigits_no_newline (n : Nat) : '\n' ∉ natDigits n := by
  intro h
  obtain ⟨d, hd, hc⟩ := natDigits_digit n _ h
  have hall : ∀ d, d < 10 → digitChar d ≠ '\n' := by decide
  exact hall d hd hc.symm

theorem splitLines_cons (c : Char) (cs : List Char) :
    splitLines (c :: cs) =
      if c = '\n' then [] :: splitLines cs
      else
        match splitLines cs with
        | [] => [[c]]
        | l :: ls => (c :: l) :: ls := rfl

theorem splitLines_append (xs ys : List Char) (h : '\n' ∉ xs) :
    splitLines (xs ++ '\n' :: ys) = xs :: splitLines ys := by
  induction xs with
  | nil => simp [splitLines]
  | cons x xs ih =>
    have hx : x ≠ '\n' := fun e => h (e ▸ List.mem_cons_self x xs)
    have h2 : '\n' ∉ xs := fun hh => h (List.mem_cons_of_mem _ hh)
    rw [List.cons_append, splitLines_cons, if_neg hx, ih h2]

theorem splitLines_join_newlines (pieces : List (List Char))
    (h : ∀ p ∈ pieces, '\n' ∉ p) :
    splitLines ((pieces.map (fun p => p ++ ['\n'])).flatten) = pieces ++ [[]] := by
  induction pieces with
  | nil => simp [splitLines]
  | cons p ps ih =>
    simp only [List.map_cons, List.flatten_cons]
    have hsh : p ++ ['\n'] ++ ((ps.map (fun p => p ++ ['\n'])).flatten) =
        p ++ '\n' :: ((ps.map (fun p => p ++ ['\n'])).flatten) := by
      simp
    rw [hsh, splitLines_append _ _ (h p (List.mem_cons_self p ps)),
      ih (fun q hq => h q (List.mem_cons_of_mem _ hq))]
    rfl

theorem domain_stats_fold (entries : List DomainEntry) :
    ∀ acc : List Char,
      entries.foldl
        (fun acc e =>
          if 0 < e.total_drops then acc ++ (domain_stats_line e ++ ['\n'])
          else acc)
        acc =
      acc ++ (((entries.filter (fun e => 0 < e.total_drops)).map
        (fun e => domain_stats_line e ++ ['\n'])).flatten) := by
  induction entries with
  | nil => intro acc; simp
  | cons e es ih =>
    intro acc
    by_cases hd : 0 < e.total_drops
    · simp only [List.foldl_cons, if_pos hd, List.filter_cons,
        decide_eq_true hd, if_pos, List.map_cons, List.flatten_cons]
      rw [ih]
      simp
    · simp only [List.foldl_cons, if_neg hd, List.filter_cons]
      rw [ih]
      have : decide (0 < e.total_drops) = false := decide_eq_false hd
      simp [this]

theorem stats_write_times_chain (n : Nat) :
    ∀ now last : Nat, last ≤ now → now ≤ last + 1 →
      List.Chain' (fun a b => b = a + 2) (stats_write_times n now last) ∧
      (∀ x, (stats_write_times n now last).head? = some x → x = last + 2) := by
  induction n with
  | zero =>
    intro now last h1 h2
    exact ⟨List.chain'_nil, fun x hx => by cases hx⟩
  | succ n ih =>
    intro now last h1 h2
    unfold stats_write_times
    by_cases hc : last + 2 ≤ now + 1
    · rw [if_pos hc]
      obtain ⟨hch, hhd⟩ := ih (now + 1) (now + 1) le_rfl (by omega)
      constructor
      · rw [List.chain'_cons']
        refine ⟨fun b hb => ?_, hch⟩
        have := hhd b hb
        omega
      · intro x hx
        rw [List.head?_cons, Option.some.injEq] at hx
        omega
    · rw [if_neg hc]
      exact ih (now + 1) last (by omega) (by omega)

/-- C6: the stats file content is exactly the two lines `total: <u64>` and
`blocked: <u64>`; the domain stats file holds exactly one `<name>:<drops>`
line per entry with non-zero drops (zero-drop entries are omitted), in store
order; and under the idealized 1-second tick model of the main loop,
consecutive rewrites of both files are 2 seconds apart.  Each write is a
whole-file truncate-and-write (`fopen` mode `"w"`), which is why the content
functions describe complete files. -/
theorem claim_C6_exporter_format (total blocked : Nat)
    (entries : List DomainEntry)
    (hdom : ∀ e ∈ entries, '\n' ∉ e.domain.data) :
    splitLines (write_stats_content total blocked) =
      ["total: ".data ++ natDigits total,
       "blocked: ".data ++ natDigits blocked, []] ∧
    splitLines (domain_stats_content entries) =
      ((entries.filter (fun e => 0 < e.total_drops)).map domain_stats_line)
        ++ [[]] ∧
    (∀ n t, List.Chain' (fun a b => b = a + 2) (stats_write_times n t t)) := by
  refine ⟨?_, ?_, ?_⟩
  · have h1 : '\n' ∉ "total: ".data ++ natDigits total := by
      intro h
      rcases List.mem_append.mp h with h | h
      · revert h
        decide
      · exact natDigits_no_newline total h
    have h2 : '\n' ∉ "blocked: ".data ++ natDigits blocked := by
      intro h
      rcases List.mem_append.mp h with h | h
      · revert h
        decide
      · exact natDigits_no_newline blocked h
    unfold write_stats_content
    rw [splitLines_append _ _ h1]
    have h3 : "blocked: ".data ++ natDigits blocked ++ ['\n'] =
        ("blocked: ".data ++ natDigits blocked) ++ '\n' :: ([] : List Char) :=
      rfl
    rw [h3, splitLines_append _ _ h2]
    rfl
  · unfold domain_stats_content
    rw [domain_stats_fold entries []]
    have hmapmap :
        (entries.filter (fun e => 0 < e.total_drops)).map
          (fun e => domain_stats_line e ++ ['\n']) =
        ((entries.filter (fun e => 0 < e.total_drops)).map
          domain_stats_line).map (fun p => p ++ ['\n']) := by
      rw [List.map_map]
      rfl
    rw [List.nil_append, hmapmap, splitLines_join_newlines]
    intro p hp
    rw [List.mem_map] at hp
    obtain ⟨e, he, rfl⟩ := hp
    have hent : e ∈ entries := (List.mem_filter.mp he).1
    intro hmem
    unfold domain_stats_line at hmem
    rcases List.mem_append.mp hmem with h | h
    · exact hdom e hent h
    · rcases List.mem_cons.mp h with h | h
      · cases h
      · exact natDigits_no_newline _ h
  · intro n t
    exact (stats_write_times_chain n t t le_rfl (by omega)).1

def entriesC6 : List DomainEntry :=
  [{ domain := "ads.example.com", total_drops := 2, resolved_ips := [5],
     ip_capacity := 4 },
   { domain := "clean.example.com", total_drops := 0, resolved_ips := [],
     ip_capacity := 4 }]

/-- Witness for C6: with counters 12/3 and a registry holding one entry with
2 drops and one with 0 drops, the stats file has exactly the two expected
lines and the domain file exactly one line (the zero-drop entry is
omitted). -/
theorem claim_C6_exporter_format_witness :
    splitLines (write_stats_content 12 3) =
      ["total: ".data ++ natDigits 12,
       "blocked: ".data ++ natDigits 3, []] ∧
    splitLines (domain_stats_content entriesC6) =
      ((entriesC6.filter (fun e => 0 < e.total_drops)).map domain_stats_line)
        ++ [[]] ∧
    (∀ n t, List.Chain' (fun a b => b = a + 2) (stats_write_times n t t)) :=
  claim_C6_exporter_format 12 3 entriesC6 (by decide)

end EBAF
